import Mathlib

/-!
Verification of the image convert-and-resize worker (`src/index.mjs`).

The handler is shallowly embedded: the AWS S3 calls and the native image
libraries (`heic-convert`, `sharp`) are oracles supplied through an `Env`
record, and the handler's observable behaviour is a `RunResult` holding the
JavaScript return value (or thrown error), the ordered list of S3 calls it
issued, and the console messages it printed.  String-manipulating helpers of
the source (`decodeURIComponent`, `String.replace`, `toLowerCase`,
`path.posix.parse`) are translated directly from their JavaScript / Node.js
semantics, restricted where noted.
-/

namespace ImageWorker

/-! ## Small JavaScript string helpers -/

/-- Model of `srcKey.replace(/\+/g, " ")` (src/index.mjs line 41): every
literal plus sign becomes a space. -/
def plusToSpace (s : String) : String :=
  String.mk (s.data.map (fun c => if c = '+' then ' ' else c))

/-- Model of `String.prototype.toLowerCase` for the characters this pipeline
meets (ASCII letters); `Char.toLower` lowercases exactly the ASCII range. -/
def toLowerAscii (s : String) : String :=
  String.mk (s.data.map Char.toLower)

/-- Model of `ext.replace('.', '')` (src/index.mjs line 63): with a plain
string pattern, JavaScript `replace` removes only the FIRST occurrence. -/
def replaceFirstDotList : List Char → List Char
  | [] => []
  | c :: r => if c = '.' then r else c :: replaceFirstDotList r

/-- String wrapper of `replaceFirstDotList`. -/
def replaceFirstDotStr (s : String) : String :=
  String.mk (replaceFirstDotList s.data)

/-- Model of the JavaScript expression `a || b` for string-or-undefined
values: `undefined` and the empty string are falsy. -/
def jsStrOr (a : Option String) (b : String) : String :=
  match a with
  | some s => if s = "" then b else s
  | none => b

/-- Model of `meta[k1] || meta[k2] || ''` (src/index.mjs line 48). -/
def jsTruthyOr (a b : Option String) : String :=
  jsStrOr a (jsStrOr b "")

/-! ## decodeURIComponent

`decodeURIComponent` (src/index.mjs line 41) percent-decodes the key and
throws `URIError` on a malformed escape or invalid UTF-8.  We model it by
turning the input into its byte sequence (each `%XX` contributing the byte
`XX`, any other character contributing its UTF-8 bytes) and decoding that
byte sequence as UTF-8, `none` standing for the thrown `URIError`. -/

/-- Value of one hexadecimal digit, upper or lower case, computed from the
character code (48-57 are the decimal digits, 97-102 and 65-70 the letters). -/
def hexDigitVal (c : Char) : Option Nat :=
  let v := c.toNat
  if 48 ≤ v ∧ v ≤ 57 then some (v - 48)
  else if 97 ≤ v ∧ v ≤ 102 then some (v - 87)
  else if 65 ≤ v ∧ v ≤ 70 then some (v - 55)
  else none

/-- UTF-8 encoding of one code point, as a list of byte values. -/
def utf8EncodeChar (c : Char) : List Nat :=
  let u := c.toNat
  if u < 128 then [u]
  else if u < 2048 then [192 + u / 64, 128 + u % 64]
  else if u < 65536 then [224 + u / 4096, 128 + u / 64 % 64, 128 + u % 64]
  else [240 + u / 262144, 128 + u / 4096 % 64, 128 + u / 64 % 64, 128 + u % 64]

/-- Decode one UTF-8 sequence from the front of a byte list, rejecting
overlong encodings, surrogates and out-of-range code points. -/
def utf8DecodeOne : List Nat → Option (Char × List Nat)
  | [] => none
  | b1 :: rest =>
    if b1 < 128 then some (Char.ofNat b1, rest)
    else if 194 ≤ b1 ∧ b1 ≤ 223 then
      match rest with
      | b2 :: r =>
        if 128 ≤ b2 ∧ b2 < 192 then
          some (Char.ofNat ((b1 - 192) * 64 + (b2 - 128)), r)
        else none
      | [] => none
    else if 224 ≤ b1 ∧ b1 ≤ 239 then
      match rest with
      | b2 :: b3 :: r =>
        if (128 ≤ b2 ∧ b2 < 192) ∧ (128 ≤ b3 ∧ b3 < 192) then
          let u := (b1 - 224) * 4096 + (b2 - 128) * 64 + (b3 - 128)
          if 2048 ≤ u ∧ (u < 55296 ∨ 57344 ≤ u) then some (Char.ofNat u, r)
          else none
        else none
      | _ => none
    else if 240 ≤ b1 ∧ b1 ≤ 244 then
      match rest with
      | b2 :: b3 :: b4 :: r =>
        if (128 ≤ b2 ∧ b2 < 192) ∧ (128 ≤ b3 ∧ b3 < 192) ∧ (128 ≤ b4 ∧ b4 < 192) then
          let u := (b1 - 240) * 262144 + (b2 - 128) * 4096 + (b3 - 128) * 64 + (b4 - 128)
          if 65536 ≤ u ∧ u ≤ 1114111 then some (Char.ofNat u, r)
          else none
        else none
      | _ => none
    else none

/-- Decode a whole byte list as UTF-8; the fuel argument is an upper bound on
the number of characters and is always instantiated with the list length
(each sequence consumes at least one byte, so the fuel never runs out). -/
def utf8DecodeFuel : Nat → List Nat → Option (List Char)
  | _, [] => some []
  | 0, _ :: _ => none
  | fuel + 1, l =>
    match utf8DecodeOne l with
    | none => none
    | some (c, rest) => (utf8DecodeFuel fuel rest).map (fun cs => c :: cs)

/-- UTF-8 decoding of a byte list. -/
def utf8Decode (l : List Nat) : Option (List Char) :=
  utf8DecodeFuel l.length l

/-- Byte sequence denoted by a percent-encoded character list: `%XX` yields
the byte `XX` (two hex digits required, else `none` = `URIError`), any other
character contributes its own UTF-8 bytes. -/
def percentDecode : List Char → Option (List Nat)
  | [] => some []
  | '%' :: h1 :: h2 :: rest =>
    match hexDigitVal h1, hexDigitVal h2 with
    | some x, some y => (percentDecode rest).map (fun bs => (16 * x + y) :: bs)
    | _, _ => none
  | '%' :: _ => none
  | c :: rest => (percentDecode rest).map (fun bs => utf8EncodeChar c ++ bs)

/-- Model of JavaScript `decodeURIComponent`; `none` models a thrown
`URIError`. -/
def decodeURIComponentM (s : String) : Option String :=
  match percentDecode s.data with
  | none => none
  | some bs =>
    match utf8Decode bs with
    | none => none
    | some cs => some (String.mk cs)

/-! ## path.posix.parse

`path.posix.parse` (src/index.mjs line 60) is transcribed from Node.js
`lib/path.js`.  The original scans the string from its last character down to
index `start` (0, or 1 for an absolute path), recording the end of the last
path component (`endV`), the position after the last slash (`startPart`), the
last dot of the component (`startDot`) and the `preDotState` used for the
dot-file / `..` special cases.  Our loop walks the reversed character list
and carries `n = i + 1`, where `i` is the JavaScript loop index, so that the
consumed list is always `(s.take n).reverse`. -/

/-- State of the backwards scan of `path.posix.parse`.  `startDot = none` and
`endV = none` play the role of the JavaScript `-1` sentinels. -/
structure ParseSt where
  startDot : Option Nat
  startPart : Nat
  endV : Option Nat
  matchedSlash : Bool
  preDotState : Int
deriving DecidableEq

/-- Bookkeeping done for one non-slash character `c` at index `i`. -/
def parseStep (c : Char) (i : Nat) (st : ParseSt) : ParseSt :=
  let st1 :=
    if st.endV = none then { st with matchedSlash := false, endV := some (i + 1) }
    else st
  if c = '.' then
    match st1.startDot with
    | none => { st1 with startDot := some i }
    | some _ => if st1.preDotState ≠ 1 then { st1 with preDotState := 1 } else st1
  else if st1.startDot ≠ none then { st1 with preDotState := -1 }
  else st1

/-- The backwards scan.  The list argument is the reversed not-yet-consumed
prefix of the path and `n - 1` is the JavaScript index of its head; the JS
loop condition `i >= start` is `¬ n ≤ start`.  Stopping at a slash with
`matchedSlash = false` sets `startPart := i + 1 = n` (the JS `break`). -/
def parseLoop (start : Nat) : List Char → Nat → ParseSt → ParseSt
  | [], _, st => st
  | c :: rest, n, st =>
    if n ≤ start then st
    else if c = '/' then
      if st.matchedSlash then parseLoop start rest (n - 1) st
      else { st with startPart := n }
    else parseLoop start rest (n - 1) (parseStep c (n - 1) st)

/-- Result shape of `path.posix.parse`. -/
structure ParsedPath where
  root : String
  dir : String
  base : String
  ext : String
  name : String
deriving DecidableEq

/-- JavaScript `String.prototype.slice(a, b)` on a character list (for the
index ranges produced by the scan: `0 ≤ a`, and an empty result when
`b ≤ a`). -/
def strSlice (s : List Char) (a b : Nat) : String :=
  String.mk ((s.drop a).take (b - a))

/-- Transcription of Node.js `path.posix.parse`, on the character list of
the path. -/
def posixParseCore (s : List Char) : ParsedPath :=
  if s.length = 0 then ⟨"", "", "", "", ""⟩
  else
    let isAbsolute := s.headD ' ' = '/'
    let root := if isAbsolute then "/" else ""
    let start := if isAbsolute then 1 else 0
    let st := parseLoop start s.reverse s.length ⟨none, 0, none, true, 0⟩
    -- dir: everything before the last slash; for the root alone, the root.
    let dir :=
      if 0 < st.startPart then strSlice s 0 (st.startPart - 1)
      else if isAbsolute then "/" else ""
    match st.endV with
    | none => ⟨root, dir, "", "", ""⟩
    | some e =>
      let start2 := if st.startPart = 0 ∧ isAbsolute then 1 else st.startPart
      -- no extension: no dot, a dot-file, or the component `..`
      if st.startDot = none ∨ st.preDotState = 0 ∨
          (st.preDotState = 1 ∧ st.startDot = some (e - 1) ∧
            st.startDot = some (st.startPart + 1)) then
        ⟨root, dir, strSlice s start2 e, "", strSlice s start2 e⟩
      else
        match st.startDot with
        | none => ⟨root, dir, strSlice s start2 e, "", strSlice s start2 e⟩
        | some sd => ⟨root, dir, strSlice s start2 e, strSlice s sd e, strSlice s start2 sd⟩

/-- Transcription of Node.js `path.posix.parse` (src/index.mjs line 60). -/
def posixParse (p : String) : ParsedPath :=
  posixParseCore p.data

/-- Lines 63-64 of src/index.mjs: strip the dot from `parsed.ext` and
lowercase the result (`imageType`). -/
def imageTypeOf (k : String) : String :=
  toLowerAscii (replaceFirstDotStr (posixParse k).ext)

/-! ## Data model of the handler -/

/-- Byte buffers (`Buffer` in the source) are lists of byte values. -/
abbrev Buffer : Type := List Nat

/-- The `s3.object` part of one notification record. -/
structure S3ObjectRef where
  key : String
deriving DecidableEq

/-- The `s3.bucket` part of one notification record. -/
structure S3BucketRef where
  name : String
deriving DecidableEq

/-- The `s3` part of one notification record. -/
structure S3Part where
  bucket : S3BucketRef
  object : S3ObjectRef
deriving DecidableEq

/-- One notification record. -/
structure S3Record where
  s3 : S3Part
deriving DecidableEq

/-- The inbound event.  `Records = none` models an event object without a
`Records` field (so `event.Records` is `undefined` in JavaScript). -/
structure S3Event where
  Records : Option (List S3Record)
deriving DecidableEq

/-- Object metadata, a string-to-string mapping (`head.Metadata`). -/
abbrev Metadata : Type := List (String × String)

/-- One S3 call issued by the handler, with the arguments it was given. -/
inductive S3Call where
  | headObject (bucket key : String)
  | getObject (bucket key : String)
  | putObject (bucket key : String) (body : Buffer) (contentType : String)
      (metadata : Metadata)
deriving DecidableEq

/-- A thrown JavaScript error. -/
inductive JsError where
  | typeError (msg : String)
  | uriError
  | jsError (msg : String)
deriving DecidableEq

/-- A JavaScript return value of the handler: `return;` yields `undefined`,
line 124 returns a string. -/
inductive JsValue where
  | undefined
  | str (s : String)
deriving DecidableEq

/-- Oracle for the effectful collaborators of one run: the three S3
operations, `bodyToBuffer` (src/index.mjs lines 9-36, whose outcome depends
on the stream shape S3 returned), `heic-convert` (lines 92-96) and the two
`sharp` pipelines (lines 100-105: with `.jpeg({ quality: 100 })` for HEIC
input, plain otherwise).  An `Except.error` models the corresponding call
rejecting / throwing. -/
structure Env where
  head : Except String Metadata
  getBody : Except String Buffer
  collect : Buffer → Except String Buffer
  heicConvert : Buffer → Except String Buffer
  sharpJpegResize : Buffer → Nat → Except String Buffer
  sharpResize : Buffer → Nat → Except String Buffer
  put : Except String Unit

/-- Observable outcome of one run: return value or thrown error, the ordered
S3 calls, and the console messages (value interpolations of the original
`console.log` lines are kept only where a claim needs them). -/
instance {α β : Type} [DecidableEq α] [DecidableEq β] : DecidableEq (Except α β) := fun a b =>
  match a, b with
  | .ok x, .ok y => decidable_of_iff (x = y) (by simp)
  | .error x, .error y => decidable_of_iff (x = y) (by simp)
  | .ok _, .error _ => .isFalse (by simp)
  | .error _, .ok _ => .isFalse (by simp)

structure RunResult where
  result : Except JsError JsValue
  calls : List S3Call
  logs : List String
deriving DecidableEq

/-! ## The handler (src/index.mjs lines 38-129) -/

/-- Line 108 of src/index.mjs, the output-format mapping applied to the
lowercased source extension:
`imageType === 'heic' ? 'jpg' : (imageType === 'jpg' ? 'jpeg' : imageType)`. -/
def outputFiletype (imageType : String) : String :=
  if imageType = "heic" then "jpg"
  else if imageType = "jpg" then "jpeg" else imageType

/-- Lines 58-128 of src/index.mjs: everything inside the big `try` block,
taken after the processed-flag gate.  Calls and logs listed here are appended
by `handler` after the ones of lines 39-56.  The whole block sits in a
`try/catch` that logs and rethrows, so every stage failure becomes an
`Except.error` carrying the original message. -/
def pipeline (env : Env) (srcBucket srcKey : String) : RunResult :=
  let parsed := posixParse srcKey
  let imageType := imageTypeOf srcKey
  let logs0 := [s!"File type: {imageType}"]
  -- `if (!["heic"].includes(imageType)) { ...; return; }`  (line 71)
  if (["heic"].contains imageType) = false then
    ⟨.ok .undefined, [], logs0 ++ [s!"Unsupported image type: {imageType}"]⟩
  else
    let logs1 := logs0 ++ [s!"Fetching object from S3: {srcKey}"]
    let calls1 := [S3Call.getObject srcBucket srcKey]
    match env.getBody with
    | .error m => ⟨.error (.jsError m), calls1, logs1 ++ ["Error processing file:"]⟩
    | .ok body =>
      let logs2 := logs1 ++ ["S3 object fetched"]
      match env.collect body with
      | .error m => ⟨.error (.jsError m), calls1, logs2 ++ ["Error processing file:"]⟩
      | .ok contentBuffer =>
        let width := 1000
        let logs3 := logs2 ++
          [s!"Processing image with sharp: {srcKey}",
            "Converting HEIC to JPEG buffer using heic-convert"]
        match (if imageType = "heic" then env.heicConvert contentBuffer
               else .ok contentBuffer) with
        | .error m => ⟨.error (.jsError m), calls1, logs3 ++ ["Error processing file:"]⟩
        | .ok workingBuffer =>
          match (if imageType = "heic" then env.sharpJpegResize workingBuffer width
                 else env.sharpResize workingBuffer width) with
          | .error m => ⟨.error (.jsError m), calls1, logs3 ++ ["Error processing file:"]⟩
          | .ok resizedBuffer =>
            let outFmt := outputFiletype imageType  -- line 108
            let md : Metadata :=
              [("image-processed", "true"), ("processed-width", "1000"),
                ("original-ext", imageType), ("output-format", outFmt)]
            let calls2 := calls1 ++
              [S3Call.putObject srcBucket srcKey resizedBuffer
                ("image/" ++ outFmt) md]
            let logs4 := logs3 ++ [s!"Overwriting original object: {srcKey}"]
            match env.put with
            | .error m => ⟨.error (.jsError m), calls2, logs4 ++ ["Error processing file:"]⟩
            | .ok _ =>
              have _ := parsed  -- parsed.dir / parsed.name bound but unused past line 64
              ⟨.ok (.str s!"Processed and overwritten {srcBucket}/{srcKey} (format: {outFmt})"),
                calls2, logs4 ++ ["Object overwritten with processed image:"]⟩

/-- The Lambda `handler` (src/index.mjs line 38).  Accessing
`event.Records[0].s3` with `Records` absent or empty throws a `TypeError`
before any S3 call; a malformed key makes `decodeURIComponent` throw
`URIError` (line 41); the `HeadObject` gate of lines 45-56 either skips
(metadata flag truthy and case-insensitively "true"), or proceeds — also
when `HeadObject` itself failed. -/
def handler (env : Env) (event : S3Event) : RunResult :=
  let logStart := "Lambda started with event:"
  match event.Records with
  | none => ⟨.error (.typeError "Cannot read properties of undefined (reading 0)"), [], [logStart]⟩
  | some [] => ⟨.error (.typeError "Cannot read properties of undefined (reading s3)"), [], [logStart]⟩
  | some (record :: _) =>
    let srcBucket := record.s3.bucket.name
    match decodeURIComponentM (plusToSpace record.s3.object.key) with
    | none => ⟨.error .uriError, [], [logStart]⟩
    | some srcKey =>
      let logs1 := [logStart, s!"Processing file: {srcKey}"]
      let calls0 := [S3Call.headObject srcBucket srcKey]
      match env.head with
      | .ok meta =>
        -- line 48
        let flagVal := jsTruthyOr (meta.lookup "image-processed") (meta.lookup "Image-Processed")
        if toLowerAscii flagVal = "true" then
          ⟨.ok .undefined, calls0,
            logs1 ++ ["Object already processed (metadata flag present). Skipping."]⟩
        else
          let r := pipeline env srcBucket srcKey
          ⟨r.result, calls0 ++ r.calls, logs1 ++ r.logs⟩
      | .error _ =>
        let r := pipeline env srcBucket srcKey
        ⟨r.result, calls0 ++ r.calls,
          logs1 ++ ["HeadObject failed or not permitted; proceeding without metadata check:"] ++ r.logs⟩

/-! ## Concrete fixtures for witnesses and counterexamples -/

/-- An environment in which every external collaborator succeeds, with the
given `HeadObject` outcome. -/
def envWith (m : Except String Metadata) : Env :=
  { head := m
    getBody := .ok [7, 8]
    collect := fun b => .ok b
    heicConvert := fun b => .ok (0 :: b)
    sharpJpegResize := fun b w => .ok (w % 256 :: b)
    sharpResize := fun b _ => .ok b
    put := .ok () }

/-- An event with a single record for bucket `"bkt"` and the given raw key. -/
def mkEvent (k : String) : S3Event :=
  ⟨some [⟨⟨⟨"bkt"⟩, ⟨k⟩⟩⟩]⟩

/-- The re-joining operation of the spec's resolver invariant: directory
(followed by a path separator when non-empty), base name, and extension
(`ParsedPath.ext` already carries its leading dot when non-empty). -/
def rejoin (p : ParsedPath) : String :=
  (if p.dir = "" then "" else p.dir ++ "/") ++ p.name ++ p.ext

/-- Invariant on the `startDot` field of the scan state: unset, or an index
in `[p, e)`. -/
abbrev SdOk (p : Nat) (sdo : Option Nat) (e : Nat) : Prop :=
  sdo = none ∨ ∃ sd, sdo = some sd ∧ p ≤ sd ∧ sd < e

/-! ## Characterization of the PutObject call -/

/-- Helper: a `putObject` call can only appear in the `pipeline` trace after
the object fetch, buffer collection, HEIC conversion and resize all
succeeded, and then its arguments are exactly the published object. -/
theorem pipeline_putObject_mem (env : Env) (B K pb pk : String) (body : Buffer)
    (ct : String) (md : Metadata)
    (h : S3Call.putObject pb pk body ct md ∈ (pipeline env B K).calls) :
    pb = B ∧ pk = K ∧ imageTypeOf K = "heic" ∧
      ∃ bd buf w, env.getBody = .ok bd ∧ env.collect bd = .ok buf ∧
        env.heicConvert buf = .ok w ∧ env.sharpJpegResize w 1000 = .ok body ∧
        ct = "image/jpg" ∧
        md = [("image-processed", "true"), ("processed-width", "1000"),
          ("original-ext", "heic"), ("output-format", "jpg")] := by
  by_cases hit : imageTypeOf K = "heic"
  case neg =>
    have hc : (["heic"].contains (imageTypeOf K)) = false := by simpa using hit
    simp [pipeline, hc, hit] at h
  case pos =>
    rcases hg : env.getBody with m | bd
    · simp [pipeline, hit, hg] at h
    · rcases hcol : env.collect bd with m | buf
      · simp [pipeline, hit, hg, hcol] at h
      · rcases hconv : env.heicConvert buf with m | w
        · simp [pipeline, hit, hg, hcol, hconv] at h
        · rcases hres : env.sharpJpegResize w 1000 with m | r
          · simp [pipeline, hit, hg, hcol, hconv, hres] at h
          · rcases hput : env.put with m | u
            · simp [pipeline, hit, hg, hcol, hconv, hres, hput,
                outputFiletype] at h
              obtain ⟨h1, h2, h3, h4, h5⟩ := h
              exact ⟨h1, h2, hit, bd, buf, w, by simp [hg, hcol, hconv, hres, h3, h4, h5]⟩
            · simp [pipeline, hit, hg, hcol, hconv, hres, hput,
                outputFiletype] at h
              obtain ⟨h1, h2, h3, h4, h5⟩ := h
              exact ⟨h1, h2, hit, bd, buf, w, by simp [hg, hcol, hconv, hres, h3, h4, h5]⟩

/-- Helper: a `putObject` call in the full `handler` trace comes from the
`pipeline` part, on the decoded key of the first record. -/
theorem handler_putObject_mem (env : Env) (ev : S3Event) (pb pk : String)
    (body : Buffer) (ct : String) (md : Metadata)
    (h : S3Call.putObject pb pk body ct md ∈ (handler env ev).calls) :
    ∃ rec rest K, ev.Records = some (rec :: rest) ∧
      decodeURIComponentM (plusToSpace rec.s3.object.key) = some K ∧
      S3Call.putObject pb pk body ct md ∈ (pipeline env rec.s3.bucket.name K).calls := by
  rcases ev with ⟨_ | ⟨_ | ⟨rec, rest⟩⟩⟩
  · simp [handler] at h
  · simp [handler] at h
  · rcases hdec : decodeURIComponentM (plusToSpace rec.s3.object.key) with _ | K
    · simp [handler, hdec] at h
    · refine ⟨rec, rest, K, rfl, hdec, ?_⟩
      rcases hh : env.head with m | meta
      · simpa [handler, hdec, hh, List.mem_cons] using h
      · by_cases hf : toLowerAscii (jsTruthyOr (meta.lookup "image-processed")
            (meta.lookup "Image-Processed")) = "true"
        · simp [handler, hdec, hh, hf] at h
        · simpa [handler, hdec, hh, hf, List.mem_cons] using h

/-! ## Structure of the path scan (towards the resolver re-join invariant) -/

/-- Helper: `String.mk` distributes over list append (definitional). -/
theorem mk_append (a b : List Char) : String.mk a ++ String.mk b = String.mk (a ++ b) := rfl

/-- Helper: a `String.mk` is the empty string exactly on the empty list. -/
theorem mk_eq_empty (l : List Char) : String.mk l = "" ↔ l = [] := by
  constructor
  · intro h
    exact congrArg String.data h
  · intro h
    exact h ▸ rfl

theorem str_empty_append (x : String) : "" ++ x = x := by
  obtain ⟨l⟩ := x
  rfl

theorem str_append_empty (x : String) : x ++ "" = x := by
  obtain ⟨l⟩ := x
  show String.mk (l ++ []) = String.mk l
  rw [List.append_nil]

theorem str_append_assoc (a b c : String) : a ++ b ++ c = a ++ (b ++ c) := by
  obtain ⟨x⟩ := a
  obtain ⟨y⟩ := b
  obtain ⟨z⟩ := c
  show String.mk (x ++ y ++ z) = String.mk (x ++ (y ++ z))
  rw [List.append_assoc]

/-- Helper: adjacent slices concatenate. -/
theorem strSlice_append (s : List Char) (a b c : Nat) (hab : a ≤ b) (hbc : b ≤ c) :
    strSlice s a b ++ strSlice s b c = strSlice s a c := by
  have hdrop : s.drop b = (s.drop a).drop (b - a) := by
    rw [List.drop_drop]
    congr 1
    omega
  have htake : (s.drop a).take (b - a) ++ ((s.drop a).drop (b - a)).take (c - b) =
      (s.drop a).take (c - a) := by
    rw [← List.take_add]
    congr 1
    omega
  show String.mk ((s.drop a).take (b - a) ++ (s.drop b).take (c - b)) = _
  rw [hdrop, htake]
  rfl

/-- Helper: the slice to the end of the list is the corresponding drop. -/
theorem strSlice_to_end (s : List Char) (a : Nat) :
    strSlice s a s.length = String.mk (s.drop a) := by
  unfold strSlice
  congr 1
  apply List.take_of_length_le
  rw [List.length_drop]

/-- Helper: the full slice is the whole string. -/
theorem strSlice_full (s : List Char) : strSlice s 0 s.length = String.mk s := by
  simpa using strSlice_to_end s 0

/-- Helper: when `endV` is already set, `parseStep` keeps `endV`,
`matchedSlash` and `startPart`, and either keeps `startDot` or sets it from
`none` to the current index. -/
theorem parseStep_fields (c : Char) (i : Nat) (st : ParseSt) (e : Nat)
    (h : st.endV = some e) :
    (parseStep c i st).endV = some e ∧
    (parseStep c i st).matchedSlash = st.matchedSlash ∧
    (parseStep c i st).startPart = st.startPart ∧
    ((parseStep c i st).startDot = st.startDot ∨
      (st.startDot = none ∧ (parseStep c i st).startDot = some i)) := by
  unfold parseStep
  simp only [h]
  by_cases hc : c = '.'
  · cases hsd : st.startDot with
    | none => simp [hc, hsd, h]
    | some sd => by_cases hp : st.preDotState = 1 <;> simp [hc, hsd, hp, h]
  · by_cases hsd : st.startDot = none <;> simp [hc, hsd, h]

/-- Invariant of the backwards scan, starting from a state whose `endV` is
already fixed, `matchedSlash` is off and `startPart` is 0 (i.e. right after
the last character was seen, for a path with no trailing slash): the scan
keeps `endV`, and either never meets a slash (`startPart` stays 0) or stops
just after a slash of the path; `startDot` stays within the scanned range. -/
theorem parseLoop_structure (s : List Char) (e : Nat) :
    ∀ (n : Nat) (st : ParseSt), n ≤ s.length → n ≤ e →
      st.matchedSlash = false → st.endV = some e → st.startPart = 0 →
      SdOk n st.startDot e →
      (parseLoop 0 ((s.take n).reverse) n st).endV = some e ∧
      ((parseLoop 0 ((s.take n).reverse) n st).startPart = 0 ∧
          SdOk 0 (parseLoop 0 ((s.take n).reverse) n st).startDot e ∨
        ∃ j, j < n ∧ s.get? j = some '/' ∧
          (parseLoop 0 ((s.take n).reverse) n st).startPart = j + 1 ∧
          SdOk (j + 1) (parseLoop 0 ((s.take n).reverse) n st).startDot e) := by
  intro n
  induction n with
  | zero =>
    intro st _ _ _ hend _ hsd
    refine ⟨hend, Or.inl ⟨by assumption, ?_⟩⟩
    simpa [SdOk] using hsd
  | succ n ih =>
    intro st hlen he hms hend hsp hsd
    have hnlt : n < s.length := hlen
    have hc : s.take (n + 1) = s.take n ++ (s[n]?).toList := List.take_succ
    have hgn : s[n]? = some s[n] := List.getElem?_eq_getElem hnlt
    rw [hc, hgn] at *
    rw [List.reverse_append]
    simp only [List.reverse_cons, List.reverse_nil, List.nil_append, Option.toList,
      List.singleton_append]
    show (parseLoop 0 (s[n] :: (s.take n).reverse) (n + 1) st).endV = some e ∧ _
    rw [parseLoop]
    by_cases hslash : s[n] = '/'
    · -- the scan stops here: startPart := n + 1
      simp only [hslash, if_neg (by omega : ¬ (n + 1 ≤ 0)), if_pos rfl, hms]
      refine ⟨hend, Or.inr ⟨n, by omega, ?_, rfl, ?_⟩⟩
      · rw [List.get?_eq_getElem?, List.getElem?_eq_getElem hnlt, hslash]
      · simpa [SdOk] using hsd
    · -- an ordinary character: one `parseStep`, then the inductive hypothesis
      obtain ⟨h1, h2, h3, h4⟩ := parseStep_fields s[n] n st e hend
      simp only [if_neg (by omega : ¬ (n + 1 ≤ 0)), if_neg hslash, Nat.add_sub_cancel]
      have hsd2 : SdOk n (parseStep s[n] n st).startDot e := by
        rcases h4 with h4 | ⟨hnone, h4⟩
        · rw [h4]
          rcases hsd with hsd | ⟨sd, hsd, hge, hlt⟩
          · exact Or.inl hsd
          · exact Or.inr ⟨sd, hsd, by omega, hlt⟩
        · exact Or.inr ⟨n, h4, le_refl n, by omega⟩
      obtain ⟨ha, hb⟩ := ih (parseStep s[n] n st) (by omega) (by omega)
        (by rw [h2, hms]) h1 (by rw [h3, hsp]) hsd2
      refine ⟨ha, ?_⟩
      rcases hb with hb | ⟨j, hj, hsl, hspj, hsdj⟩
      · exact Or.inl hb
      · exact Or.inr ⟨j, by omega, hsl, hspj, hsdj⟩

/-! ## Claims -/

/-- C1: the handler issues a PutObject only when the object fetch, the
collection of the body stream into a buffer, the HEIC conversion and the
resize all succeeded, and the published body is the resize output; hence a
run in which any of those stages fails issues no PutObject and leaves the
stored object unmodified. -/
theorem c1_put_only_after_full_success (env : Env) (ev : S3Event) (pb pk : String)
    (body : Buffer) (ct : String) (md : Metadata)
    (h : S3Call.putObject pb pk body ct md ∈ (handler env ev).calls) :
    ∃ bd buf w, env.getBody = .ok bd ∧ env.collect bd = .ok buf ∧
      env.heicConvert buf = .ok w ∧ env.sharpJpegResize w 1000 = .ok body := by
  obtain ⟨rec, rest, K, _, _, hp⟩ := handler_putObject_mem env ev pb pk body ct md h
  obtain ⟨_, _, _, bd, buf, w, hg, hcol, hconv, hres, _, _⟩ :=
    pipeline_putObject_mem env rec.s3.bucket.name K pb pk body ct md hp
  exact ⟨bd, buf, w, hg, hcol, hconv, hres⟩

/-- Witness for C1 at a concrete successful run. -/
theorem c1_put_only_after_full_success_witness :
    ∃ bd buf w, (envWith (.ok [])).getBody = .ok bd ∧
      (envWith (.ok [])).collect bd = .ok buf ∧
      (envWith (.ok [])).heicConvert buf = .ok w ∧
      (envWith (.ok [])).sharpJpegResize w 1000 = .ok [232, 0, 7, 8] :=
  c1_put_only_after_full_success (envWith (.ok [])) (mkEvent "a.heic")
    "bkt" "a.heic" [232, 0, 7, 8] "image/jpg"
    [("image-processed", "true"), ("processed-width", "1000"),
      ("original-ext", "heic"), ("output-format", "jpg")]
    (by decide)

/-- C2 fails as stated: when the metadata map holds a truthy non-"true"
value under `image-processed` AND "true" under `Image-Processed`, the `||`
chain of line 48 stops at the first value, the flag is not recognised, and
the handler proceeds to GetObject even though the map does contain a
processed-flag entry equal (case-insensitively) to "true". -/
theorem c2_counterexample :
    (envWith (.ok [("image-processed", "false"), ("Image-Processed", "true")])).head =
      .ok [("image-processed", "false"), ("Image-Processed", "true")] ∧
    List.lookup "Image-Processed"
      [("image-processed", "false"), ("Image-Processed", "true")] = some "true" ∧
    toLowerAscii "true" = "true" ∧
    S3Call.getObject "bkt" "a.heic" ∈
      (handler (envWith (.ok [("image-processed", "false"), ("Image-Processed", "true")]))
        (mkEvent "a.heic")).calls := by
  decide

/-- C2 (amended): when HeadObject succeeds and the FIRST truthy value among
`meta['image-processed']` and `meta['Image-Processed']` compares
case-insensitively equal to "true", the handler returns the skip result
(`undefined`) and issues no GetObject and no PutObject. -/
theorem c2_skip_on_processed_flag (env : Env) (rec : S3Record) (rest : List S3Record)
    (meta : Metadata) (K : String)
    (hdec : decodeURIComponentM (plusToSpace rec.s3.object.key) = some K)
    (hh : env.head = .ok meta)
    (hflag : toLowerAscii (jsTruthyOr (meta.lookup "image-processed")
      (meta.lookup "Image-Processed")) = "true") :
    (handler env ⟨some (rec :: rest)⟩).result = .ok .undefined ∧
    (∀ b k, S3Call.getObject b k ∉ (handler env ⟨some (rec :: rest)⟩).calls) ∧
    (∀ b k body ct md,
      S3Call.putObject b k body ct md ∉ (handler env ⟨some (rec :: rest)⟩).calls) := by
  simp [handler, hdec, hh, hflag]

/-- Witness for C2 (amended). -/
theorem c2_skip_on_processed_flag_witness :
    (handler (envWith (.ok [("image-processed", "TRUE")]))
      ⟨some [⟨⟨⟨"bkt"⟩, ⟨"a.heic"⟩⟩⟩]⟩).result = .ok .undefined ∧
    (∀ b k, S3Call.getObject b k ∉
      (handler (envWith (.ok [("image-processed", "TRUE")]))
        ⟨some [⟨⟨⟨"bkt"⟩, ⟨"a.heic"⟩⟩⟩]⟩).calls) ∧
    (∀ b k body ct md, S3Call.putObject b k body ct md ∉
      (handler (envWith (.ok [("image-processed", "TRUE")]))
        ⟨some [⟨⟨⟨"bkt"⟩, ⟨"a.heic"⟩⟩⟩]⟩).calls) :=
  c2_skip_on_processed_flag (envWith (.ok [("image-processed", "TRUE")]))
    ⟨⟨⟨"bkt"⟩, ⟨"a.heic"⟩⟩⟩ [] [("image-processed", "TRUE")] "a.heic"
    (by decide) rfl (by decide)

/-- Helper: `pipeline` never consults the HeadObject oracle, so replacing it
leaves the pipeline outcome unchanged. -/
theorem pipeline_head_update (env : Env) (h : Except String Metadata) (B K : String) :
    pipeline { env with head := h } B K = pipeline env B K := rfl

/-- C3: a HeadObject failure is never fatal — the run has the same return
value / thrown error and the same S3 call trace as the run of the same event
in which HeadObject succeeds with an empty metadata map (no flag present). -/
theorem c3_head_error_proceeds (env : Env) (ev : S3Event) (m : String)
    (hh : env.head = .error m) :
    (handler env ev).result = (handler { env with head := .ok [] } ev).result ∧
    (handler env ev).calls = (handler { env with head := .ok [] } ev).calls := by
  rcases ev with ⟨_ | ⟨_ | ⟨rec, rest⟩⟩⟩
  · exact ⟨rfl, rfl⟩
  · exact ⟨rfl, rfl⟩
  · rcases hdec : decodeURIComponentM (plusToSpace rec.s3.object.key) with _ | K
    · simp [handler, hdec]
    · have hflag : ¬ (toLowerAscii (jsTruthyOr none none) = "true") := by decide
      simp [handler, hdec, hh, hflag, pipeline_head_update]

/-- Witness for C3. -/
theorem c3_head_error_proceeds_witness :
    (handler (envWith (.error "denied")) (mkEvent "a.heic")).result =
      (handler { envWith (.error "denied") with head := .ok [] } (mkEvent "a.heic")).result ∧
    (handler (envWith (.error "denied")) (mkEvent "a.heic")).calls =
      (handler { envWith (.error "denied") with head := .ok [] } (mkEvent "a.heic")).calls :=
  c3_head_error_proceeds (envWith (.error "denied")) (mkEvent "a.heic") "denied" rfl

/-- C4: a decoded key whose lowercased extension is not in the allowlist
`["heic"]` produces a normal completion (`undefined`, not an error) with no
GetObject and no PutObject; moreover a key with no extension resolves to the
empty extension, which is outside the allowlist. -/
theorem c4_unsupported_is_noop (env : Env) (rec : S3Record) (rest : List S3Record)
    (K : String)
    (hdec : decodeURIComponentM (plusToSpace rec.s3.object.key) = some K)
    (hns : (["heic"].contains (imageTypeOf K)) = false) :
    (handler env ⟨some (rec :: rest)⟩).result = .ok .undefined ∧
    (∀ b k, S3Call.getObject b k ∉ (handler env ⟨some (rec :: rest)⟩).calls) ∧
    (∀ b k body ct md,
      S3Call.putObject b k body ct md ∉ (handler env ⟨some (rec :: rest)⟩).calls) ∧
    (∀ K2, (posixParse K2).ext = "" → (["heic"].contains (imageTypeOf K2)) = false) := by
  have hext : ∀ K2, (posixParse K2).ext = "" → (["heic"].contains (imageTypeOf K2)) = false := by
    intro K2 hK2
    simp [imageTypeOf, hK2]
    decide
  have hne : ¬ (imageTypeOf K = "heic") := by simpa using hns
  refine ⟨?_, ?_, ?_, hext⟩ <;>
  · rcases hh : env.head with m | meta
    · simp [handler, hdec, hh, pipeline, hne]
    · by_cases hf : toLowerAscii (jsTruthyOr (meta.lookup "image-processed")
          (meta.lookup "Image-Processed")) = "true"
      · simp [handler, hdec, hh, hf]
      · simp [handler, hdec, hh, hf, pipeline, hne]

/-- Witness for C4 on the key `diagram.png` (PNG branch disabled). -/
theorem c4_unsupported_is_noop_witness :
    (handler (envWith (.ok [])) ⟨some [⟨⟨⟨"bkt"⟩, ⟨"diagram.png"⟩⟩⟩]⟩).result = .ok .undefined ∧
    (∀ b k, S3Call.getObject b k ∉
      (handler (envWith (.ok [])) ⟨some [⟨⟨⟨"bkt"⟩, ⟨"diagram.png"⟩⟩⟩]⟩).calls) ∧
    (∀ b k body ct md, S3Call.putObject b k body ct md ∉
      (handler (envWith (.ok [])) ⟨some [⟨⟨⟨"bkt"⟩, ⟨"diagram.png"⟩⟩⟩]⟩).calls) ∧
    (∀ K2, (posixParse K2).ext = "" → (["heic"].contains (imageTypeOf K2)) = false) :=
  c4_unsupported_is_noop (envWith (.ok [])) ⟨⟨⟨"bkt"⟩, ⟨"diagram.png"⟩⟩⟩ []
    "diagram.png" (by decide) (by decide)

/-- C5: the scenario key `photo+name.HEIC` on an object without a processed
flag: the key decodes to `photo name.HEIC`, resolves to base name
`photo name` and lowercased extension `heic`, is classified supported, and
after conversion and resize the result is published to the same bucket and
key with ContentType `image/jpg` and exactly the claimed metadata. -/
theorem c5_photo_name_heic (env : Env) (B : String) (bd buf w r : Buffer)
    (hh : env.head = .ok [])
    (hg : env.getBody = .ok bd) (hcol : env.collect bd = .ok buf)
    (hconv : env.heicConvert buf = .ok w) (hres : env.sharpJpegResize w 1000 = .ok r)
    (hput : env.put = .ok ()) :
    decodeURIComponentM (plusToSpace "photo+name.HEIC") = some "photo name.HEIC" ∧
    (posixParse "photo name.HEIC").name = "photo name" ∧
    imageTypeOf "photo name.HEIC" = "heic" ∧
    (∃ s, (handler env ⟨some [⟨⟨⟨B⟩, ⟨"photo+name.HEIC"⟩⟩⟩]⟩).result = .ok (.str s)) ∧
    (handler env ⟨some [⟨⟨⟨B⟩, ⟨"photo+name.HEIC"⟩⟩⟩]⟩).calls =
      [S3Call.headObject B "photo name.HEIC",
        S3Call.getObject B "photo name.HEIC",
        S3Call.putObject B "photo name.HEIC" r "image/jpg"
          [("image-processed", "true"), ("processed-width", "1000"),
            ("original-ext", "heic"), ("output-format", "jpg")]] := by
  have hdec : decodeURIComponentM (plusToSpace "photo+name.HEIC") = some "photo name.HEIC" := by
    decide
  have hname : (posixParse "photo name.HEIC").name = "photo name" := by decide
  have hit : imageTypeOf "photo name.HEIC" = "heic" := by decide
  have hflag : ¬ (toLowerAscii (jsTruthyOr none none) = "true") := by decide
  refine ⟨hdec, hname, hit, ?_, ?_⟩ <;>
    simp [handler, hdec, hh, hflag, pipeline, hit, hg, hcol, hconv, hres, hput, outputFiletype]

/-- Witness for C5 at a fully concrete environment. -/
theorem c5_photo_name_heic_witness :
    decodeURIComponentM (plusToSpace "photo+name.HEIC") = some "photo name.HEIC" ∧
    (posixParse "photo name.HEIC").name = "photo name" ∧
    imageTypeOf "photo name.HEIC" = "heic" ∧
    (∃ s, (handler (envWith (.ok [])) ⟨some [⟨⟨⟨"bkt"⟩, ⟨"photo+name.HEIC"⟩⟩⟩]⟩).result =
      .ok (.str s)) ∧
    (handler (envWith (.ok [])) ⟨some [⟨⟨⟨"bkt"⟩, ⟨"photo+name.HEIC"⟩⟩⟩]⟩).calls =
      [S3Call.headObject "bkt" "photo name.HEIC",
        S3Call.getObject "bkt" "photo name.HEIC",
        S3Call.putObject "bkt" "photo name.HEIC" [232, 0, 7, 8] "image/jpg"
          [("image-processed", "true"), ("processed-width", "1000"),
            ("original-ext", "heic"), ("output-format", "jpg")]] :=
  c5_photo_name_heic (envWith (.ok [])) "bkt" [7, 8] [7, 8] [0, 7, 8] [232, 0, 7, 8]
    rfl rfl rfl rfl rfl rfl

/-- C6 fails as stated: for the key `photo.HEIC` the source extension's
original case is `HEIC`, but the published metadata records the LOWERCASED
form `heic` under `original-ext` (line 118 stores `imageType`, which is the
lowercased extension). -/
theorem c6_counterexample :
    replaceFirstDotStr (posixParse "photo.HEIC").ext = "HEIC" ∧
    S3Call.putObject "bkt" "photo.HEIC" [232, 0, 7, 8] "image/jpg"
      [("image-processed", "true"), ("processed-width", "1000"),
        ("original-ext", "heic"), ("output-format", "jpg")] ∈
      (handler (envWith (.ok [])) (mkEvent "photo.HEIC")).calls ∧
    List.lookup "original-ext"
      [("image-processed", "true"), ("processed-width", "1000"),
        ("original-ext", "heic"), ("output-format", "jpg")] = some "heic" ∧
    ("heic" : String) ≠ "HEIC" := by
  decide

/-- C6 (amended): the extension is lowercased for classification, and that
same lowercased extension — not the original case — is the value recorded
under the `original-ext` metadata key of every published object. -/
theorem c6_original_ext_is_lowercased (env : Env) (ev : S3Event) (pb pk : String)
    (body : Buffer) (ct : String) (md : Metadata)
    (h : S3Call.putObject pb pk body ct md ∈ (handler env ev).calls) :
    md.lookup "original-ext" = some (imageTypeOf pk) ∧
    imageTypeOf pk = toLowerAscii (replaceFirstDotStr (posixParse pk).ext) := by
  obtain ⟨rec, rest, K, _, _, hp⟩ := handler_putObject_mem env ev pb pk body ct md h
  obtain ⟨hpb, hpk, hit, bd, buf, w, hg2, hcol2, hconv2, hres2, hct, hmd⟩ :=
    pipeline_putObject_mem env rec.s3.bucket.name K pb pk body ct md hp
  subst hpk
  refine ⟨?_, rfl⟩
  rw [hmd, hit]
  decide

/-- Witness for C6 (amended). -/
theorem c6_original_ext_is_lowercased_witness :
    List.lookup "original-ext"
      [("image-processed", "true"), ("processed-width", "1000"),
        ("original-ext", "heic"), ("output-format", "jpg")] =
      some (imageTypeOf "a.heic") ∧
    imageTypeOf "a.heic" = toLowerAscii (replaceFirstDotStr (posixParse "a.heic").ext) :=
  c6_original_ext_is_lowercased (envWith (.ok [])) (mkEvent "a.heic")
    "bkt" "a.heic" [232, 0, 7, 8] "image/jpg"
    [("image-processed", "true"), ("processed-width", "1000"),
      ("original-ext", "heic"), ("output-format", "jpg")]
    (by decide)

/-- C7 fails as stated: the skip outcome and the unsupported outcome both
return the bare `undefined` — identical completions carrying no status
string at all; only console messages tell the two apart. -/
theorem c7_counterexample :
    (handler (envWith (.ok [("image-processed", "true")])) (mkEvent "a.heic")).result =
      .ok .undefined ∧
    "Object already processed (metadata flag present). Skipping." ∈
      (handler (envWith (.ok [("image-processed", "true")])) (mkEvent "a.heic")).logs ∧
    (handler (envWith (.ok [])) (mkEvent "diagram.png")).result = .ok .undefined ∧
    "Unsupported image type: png" ∈
      (handler (envWith (.ok [])) (mkEvent "diagram.png")).logs ∧
    (handler (envWith (.ok [("image-processed", "true")])) (mkEvent "a.heic")).result =
      (handler (envWith (.ok [])) (mkEvent "diagram.png")).result := by
  decide

/-- C7 (amended): all three outcomes are normal completions; the transform
outcome returns a human-readable status string, while the skip and the
unsupported outcomes return `undefined` and are distinguished only by their
logged status messages. -/
theorem c7_outcomes_normal_with_status :
    (∀ env rec rest (meta : Metadata) K,
      decodeURIComponentM (plusToSpace rec.s3.object.key) = some K →
      env.head = .ok meta →
      toLowerAscii (jsTruthyOr (meta.lookup "image-processed")
        (meta.lookup "Image-Processed")) = "true" →
      (handler env ⟨some (rec :: rest)⟩).result = .ok .undefined ∧
        "Object already processed (metadata flag present). Skipping." ∈
          (handler env ⟨some (rec :: rest)⟩).logs) ∧
    (∀ env rec rest m K,
      decodeURIComponentM (plusToSpace rec.s3.object.key) = some K →
      env.head = .error m →
      (["heic"].contains (imageTypeOf K)) = false →
      (handler env ⟨some (rec :: rest)⟩).result = .ok .undefined ∧
        s!"Unsupported image type: {imageTypeOf K}" ∈
          (handler env ⟨some (rec :: rest)⟩).logs) ∧
    (∀ env rec rest K bd buf w r,
      decodeURIComponentM (plusToSpace rec.s3.object.key) = some K →
      env.head = .ok [] →
      imageTypeOf K = "heic" →
      env.getBody = .ok bd → env.collect bd = .ok buf →
      env.heicConvert buf = .ok w → env.sharpJpegResize w 1000 = .ok r →
      env.put = .ok () →
      ∃ s, (handler env ⟨some (rec :: rest)⟩).result = .ok (.str s)) := by
  have hflag0 : ¬ (toLowerAscii (jsTruthyOr none none) = "true") := by decide
  refine ⟨?_, ?_, ?_⟩
  · intro env rec rest meta K hdec hh hflag
    simp [handler, hdec, hh, hflag]
  · intro env rec rest m K hdec hh hns
    have hne : ¬ (imageTypeOf K = "heic") := by simpa using hns
    simp [handler, hdec, hh, pipeline, hne]
  · intro env rec rest K bd buf w r hdec hh hit hg hcol hconv hres hput
    simp [handler, hdec, hh, hflag0, pipeline, hit, hg, hcol, hconv, hres, hput, outputFiletype]

/-- Witness for C7 (amended), instantiating each of the three outcomes. -/
theorem c7_outcomes_normal_with_status_witness :
    ((handler (envWith (.ok [("image-processed", "true")]))
        ⟨some [⟨⟨⟨"bkt"⟩, ⟨"a.heic"⟩⟩⟩]⟩).result = .ok .undefined ∧
      "Object already processed (metadata flag present). Skipping." ∈
        (handler (envWith (.ok [("image-processed", "true")]))
          ⟨some [⟨⟨⟨"bkt"⟩, ⟨"a.heic"⟩⟩⟩]⟩).logs) ∧
    ((handler (envWith (.error "denied"))
        ⟨some [⟨⟨⟨"bkt"⟩, ⟨"diagram.png"⟩⟩⟩]⟩).result = .ok .undefined ∧
      "Unsupported image type: png" ∈
        (handler (envWith (.error "denied"))
          ⟨some [⟨⟨⟨"bkt"⟩, ⟨"diagram.png"⟩⟩⟩]⟩).logs) ∧
    (∃ s, (handler (envWith (.ok []))
      ⟨some [⟨⟨⟨"bkt"⟩, ⟨"a.heic"⟩⟩⟩]⟩).result = .ok (.str s)) :=
  ⟨c7_outcomes_normal_with_status.1 (envWith (.ok [("image-processed", "true")]))
      ⟨⟨⟨"bkt"⟩, ⟨"a.heic"⟩⟩⟩ [] [("image-processed", "true")] "a.heic"
      (by decide) rfl (by decide),
    c7_outcomes_normal_with_status.2.1 (envWith (.error "denied"))
      ⟨⟨⟨"bkt"⟩, ⟨"diagram.png"⟩⟩⟩ [] "denied" "diagram.png"
      (by decide) rfl (by decide),
    c7_outcomes_normal_with_status.2.2 (envWith (.ok []))
      ⟨⟨⟨"bkt"⟩, ⟨"a.heic"⟩⟩⟩ [] "a.heic" [7, 8] [7, 8] [0, 7, 8] [232, 0, 7, 8]
      (by decide) rfl (by decide) rfl rfl rfl rfl rfl⟩

/-- C9 fails as stated: the line-108 mapping is not the identity on every
non-heic extension — it sends `jpg` to `jpeg`. -/
theorem c9_counterexample :
    outputFiletype "jpg" = "jpeg" ∧ ("jpeg" : String) ≠ "jpg" := by decide

/-- C9 (amended): the output-format mapping sends `heic` to `jpg`, sends
`jpg` to `jpeg`, and is the identity on every other source extension; the
published ContentType is `image/` followed by the mapping's value on the
lowercased source extension, which is also recorded under `output-format`. -/
theorem c9_output_format_mapping :
    outputFiletype "heic" = "jpg" ∧
    outputFiletype "jpg" = "jpeg" ∧
    (∀ s, s ≠ "heic" → s ≠ "jpg" → outputFiletype s = s) ∧
    (∀ env ev pb pk body ct md,
      S3Call.putObject pb pk body ct md ∈ (handler env ev).calls →
      ct = "image/" ++ outputFiletype (imageTypeOf pk) ∧
      md.lookup "output-format" = some (outputFiletype (imageTypeOf pk))) := by
  refine ⟨rfl, rfl, ?_, ?_⟩
  · intro s h1 h2
    simp [outputFiletype, h1, h2]
  · intro env ev pb pk body ct md h
    obtain ⟨rec, rest, K, _, _, hp⟩ := handler_putObject_mem env ev pb pk body ct md h
    obtain ⟨hpb, hpk, hit, bd, buf, w, hg2, hcol2, hconv2, hres2, hct, hmd⟩ :=
      pipeline_putObject_mem env rec.s3.bucket.name K pb pk body ct md hp
    subst hpk
    rw [hmd, hct, hit]
    exact ⟨by decide, by decide⟩

/-- Witness for C9 (amended). -/
theorem c9_output_format_mapping_witness :
    outputFiletype "png" = "png" ∧
    ("image/jpg" : String) = "image/" ++ outputFiletype (imageTypeOf "a.heic") ∧
    List.lookup "output-format"
      [("image-processed", "true"), ("processed-width", "1000"),
        ("original-ext", "heic"), ("output-format", "jpg")] =
      some (outputFiletype (imageTypeOf "a.heic")) :=
  ⟨c9_output_format_mapping.2.2.1 "png" (by decide) (by decide),
    (c9_output_format_mapping.2.2.2 (envWith (.ok [])) (mkEvent "a.heic")
      "bkt" "a.heic" [232, 0, 7, 8] "image/jpg"
      [("image-processed", "true"), ("processed-width", "1000"),
        ("original-ext", "heic"), ("output-format", "jpg")] (by decide)).1,
    (c9_output_format_mapping.2.2.2 (envWith (.ok [])) (mkEvent "a.heic")
      "bkt" "a.heic" [232, 0, 7, 8] "image/jpg"
      [("image-processed", "true"), ("processed-width", "1000"),
        ("original-ext", "heic"), ("output-format", "jpg")] (by decide)).2⟩

/-- C8 fails as stated: for the folder-marker key `images/` the resolver
drops the trailing slash (Node `path.posix.parse` skips trailing
separators), so re-joining directory + base name + extension yields
`images`, not the original decoded key. -/
theorem c8_counterexample :
    rejoin (posixParse "images/") = "images" ∧ ("images" : String) ≠ "images/" := by
  decide

/-- C8 (amended): for every decoded key that neither starts nor ends with a
path separator, re-joining the resolved parts — directory (with a separator
when non-empty), base name, and extension (with its dot) — reconstructs the
original decoded key exactly. -/
theorem c8_rejoin_reconstructs (k : String)
    (hhead : k.data.head? ≠ some '/') (hlast : k.data.getLast? ≠ some '/') :
    rejoin (posixParse k) = k := by
  obtain ⟨s⟩ := k
  have hhead' : s.head? ≠ some '/' := hhead
  have hlast' : s.getLast? ≠ some '/' := hlast
  by_cases hne : s = []
  · subst hne
    rfl
  · have hlen : 0 < s.length := List.length_pos.mpr hne
    have hlen0 : ¬ (s.length = 0) := by omega
    have habs : ¬ (s.headD ' ' = '/') := by
      cases s with
      | nil => exact absurd rfl hne
      | cons a t => simpa using hhead'
    have hgl : s.getLast? = some (s.getLast hne) := List.getLast?_eq_getLast s hne
    have hcne : s.getLast hne ≠ '/' := fun hcon => hlast' (by rw [hgl, hcon])
    have hrev : s.reverse = s.getLast hne :: (s.take (s.length - 1)).reverse := by
      conv_lhs => rw [← List.dropLast_append_getLast hne]
      rw [List.reverse_concat', List.dropLast_eq_take]
    have hstep : parseLoop 0 s.reverse s.length ⟨none, 0, none, true, 0⟩ =
        parseLoop 0 ((s.take (s.length - 1)).reverse) (s.length - 1)
          (parseStep (s.getLast hne) (s.length - 1) ⟨none, 0, none, true, 0⟩) := by
      rw [hrev]
      rw [parseLoop]
      rw [if_neg (show ¬ (s.length ≤ 0) by omega), if_neg hcne]
    have hst1 : parseStep (s.getLast hne) (s.length - 1) ⟨none, 0, none, true, 0⟩ =
        if s.getLast hne = '.' then ⟨some (s.length - 1), 0, some (s.length - 1 + 1), false, 0⟩
        else ⟨none, 0, some (s.length - 1 + 1), false, 0⟩ := by
      by_cases hcdot : s.getLast hne = '.' <;> simp [parseStep, hcdot]
    have hms1 : (parseStep (s.getLast hne) (s.length - 1) ⟨none, 0, none, true, 0⟩).matchedSlash = false := by
      rw [hst1]; split <;> rfl
    have hend1 : (parseStep (s.getLast hne) (s.length - 1) ⟨none, 0, none, true, 0⟩).endV = some s.length := by
      rw [hst1]; split <;> (show some _ = some _; congr 1; omega)
    have hsp1 : (parseStep (s.getLast hne) (s.length - 1) ⟨none, 0, none, true, 0⟩).startPart = 0 := by
      rw [hst1]; split <;> rfl
    have hsd1 : SdOk (s.length - 1) (parseStep (s.getLast hne) (s.length - 1) ⟨none, 0, none, true, 0⟩).startDot s.length := by
      rw [hst1]
      split
      · exact Or.inr ⟨s.length - 1, rfl, le_refl _, by omega⟩
      · exact Or.inl rfl
    obtain ⟨hend, hD⟩ := parseLoop_structure s s.length (s.length - 1)
      (parseStep (s.getLast hne) (s.length - 1) ⟨none, 0, none, true, 0⟩)
      (by omega) (by omega) hms1 hend1 hsp1 hsd1
    show rejoin (posixParseCore s) = String.mk s
    unfold posixParseCore
    rw [if_neg hlen0]
    simp only [habs, if_false, ite_false, and_false]
    rw [hstep]
    generalize hP : parseLoop 0 ((s.take (s.length - 1)).reverse) (s.length - 1)
        (parseStep (s.getLast hne) (s.length - 1) ⟨none, 0, none, true, 0⟩) = P at hend hD ⊢
    obtain ⟨sdo, sp, eV, ms, pds⟩ := P
    dsimp only at hend hD ⊢
    subst hend
    dsimp only
    rcases hD with ⟨hsp0, hsd0⟩ | ⟨j, hj, hsl, hspj, hsdj⟩
    · -- the path has no directory part
      subst hsp0
      simp only [lt_irrefl, ite_false, reduceIte]
      rcases hsd0 with hnone | ⟨sd, hsds, hge, hlt⟩
      · subst hnone
        rw [if_pos (Or.inl rfl)]
        simp only [rejoin]
        rw [if_pos trivial, str_empty_append, str_append_empty, strSlice_full]
      · subst hsds
        by_cases hcond : (some sd = none ∨ pds = 0 ∨
            pds = 1 ∧ some sd = some (s.length - 1) ∧ some sd = some (0 + 1))
        · rw [if_pos hcond]
          simp only [rejoin]
          rw [if_pos trivial, str_empty_append, str_append_empty, strSlice_full]
        · rw [if_neg hcond]
          show rejoin ⟨"", "", strSlice s 0 s.length, strSlice s sd s.length, strSlice s 0 sd⟩ =
            String.mk s
          simp only [rejoin]
          rw [if_pos trivial, str_empty_append,
            strSlice_append s 0 sd s.length (by omega) (by omega), strSlice_full]
    · -- the path has a directory part ending at the slash at index j
      subst hspj
      have hj1 : 1 ≤ j := by
        rcases Nat.eq_zero_or_pos j with h0 | h1
        · exfalso
          subst h0
          apply hhead'
          have hh0 : s.get? 0 = s.head? := by cases s <;> rfl
          rw [← hh0, hsl]
        · exact h1
      have hjlen : j < s.length := by omega
      have hsj : s[j] = '/' := by
        have hx := hsl
        rw [List.get?_eq_getElem?, List.getElem?_eq_getElem hjlen] at hx
        exact Option.some.inj hx
      simp only [Nat.succ_pos, if_pos, Nat.add_sub_cancel, reduceIte]
      have hslice0 : strSlice s 0 j = String.mk (s.take j) := by
        unfold strSlice
        rw [List.drop_zero, Nat.sub_zero]
      have hdir : strSlice s 0 j ≠ "" := by
        intro hcon
        rw [hslice0, mk_eq_empty] at hcon
        rcases List.take_eq_nil_iff.mp hcon with h | h
        · omega
        · exact hne h
      have hkey : (strSlice s 0 j ++ "/") ++ strSlice s (j + 1) s.length = String.mk s := by
        rw [hslice0, strSlice_to_end]
        show (String.mk (s.take j) ++ String.mk ['/']) ++ String.mk (s.drop (j + 1)) = String.mk s
        rw [mk_append, mk_append]
        congr 1
        rw [List.append_assoc, List.singleton_append]
        conv_rhs => rw [← List.take_append_drop j s]
        congr 1
        rw [List.drop_eq_getElem_cons hjlen, hsj]
      rcases hsdj with hnone | ⟨sd, hsds, hge, hlt⟩
      · subst hnone
        rw [if_pos (Or.inl rfl)]
        simp only [rejoin]
        rw [if_neg hdir, str_append_empty, hkey]
      · subst hsds
        by_cases hcond : (some sd = none ∨ pds = 0 ∨
            pds = 1 ∧ some sd = some (s.length - 1) ∧ some sd = some (j + 1 + 1))
        · rw [if_pos hcond]
          simp only [rejoin]
          rw [if_neg hdir, str_append_empty, hkey]
        · rw [if_neg hcond]
          show rejoin ⟨"", strSlice s 0 j, strSlice s (j + 1) s.length,
            strSlice s sd s.length, strSlice s (j + 1) sd⟩ = String.mk s
          simp only [rejoin]
          rw [if_neg hdir, str_append_assoc,
            strSlice_append s (j + 1) sd s.length hge (by omega), hkey]

/-- Witness for C8 (amended) on a concrete directory-and-extension key. -/
theorem c8_rejoin_reconstructs_witness :
    rejoin (posixParse "dir/photo name.HEIC") = "dir/photo name.HEIC" :=
  c8_rejoin_reconstructs "dir/photo name.HEIC" (by decide) (by decide)

/-- C10: an event whose `Records` field is absent, or is the empty array,
makes the handler throw a TypeError before any S3 call: the call trace is
empty and the result is a thrown error, not a normal completion. -/
theorem c10_no_records_throws (env : Env) :
    (handler env ⟨none⟩).calls = [] ∧
    (handler env ⟨some []⟩).calls = [] ∧
    (handler env ⟨none⟩).result =
      .error (.typeError "Cannot read properties of undefined (reading 0)") ∧
    (handler env ⟨some []⟩).result =
      .error (.typeError "Cannot read properties of undefined (reading s3)") :=
  ⟨rfl, rfl, rfl, rfl⟩

end ImageWorker

